import Mathlib

/-
Verification development for the Teleport cluster-join protocol core
(lib/join/messages and lib/join/joinv1).

The Go sources are shallowly embedded:
- package `messages` (the transport-independent message model) becomes the
  `messages` namespace;
- the generated wire types `joinv1.JoinRequest`, `joinv1.JoinResponse` and
  their payloads become the `joinv1` namespace, with fields taken from the
  accesses the translator performs on them;
- the translator functions `convertRequestToMessage`,
  `convertClientInitToMessage`, `convertResponseFromMessage`,
  `convertServerInitFromMessage`, `convertResultFromMessage` are translated
  clause by clause;
- the server adapter `server.Join` is modelled as three task denotations
  (business logic, read task, write task) over explicit event traces, with
  `errgroup.Wait` modelled over the task results in completion order;
- the client adapter `Client.Join` is modelled exactly as written in the
  source, including its incomplete parts.

Byte slices are `List Nat`; `time.Time` values are `Int` (epoch instant);
errors are the inductive `JoinErr`, with `Option JoinErr` standing for Go
`error` results (`none` = nil).
-/

/-- Errors produced by the join core: `badParameter` models
`trace.BadParameter`, `transport` models an opaque error from a stream
read/write, `canceled` models a non-nil `ctx.Err()`, and `wrapped` models
`trace.Wrap(err, msg)`. -/
inductive JoinErr where
  | badParameter (msg : String)
  | transport (e : String)
  | canceled
  | wrapped (msg : String) (e : JoinErr)
  deriving DecidableEq, Repr

/-- Model of `trace.Wrap(err)` on a Go `error` value: preserves nil-ness and
the underlying error. -/
def traceWrap : Option JoinErr → Option JoinErr
  | none => none
  | some e => some e

namespace messages

/-- Field set of `messages.ProxySuppliedParameters`. -/
structure ProxySuppliedParameters where
  RemoteAddr : String
  ClientVersion : String
  deriving DecidableEq, Repr

/-- Field set of `messages.ClientInit` (the `embedRequest` marker carries no
data and is dropped). -/
structure ClientInit where
  JoinMethod : String
  TokenName : String
  NodeName : String
  Role : String
  AdditionalPrincipals : List String
  DNSNames : List String
  PublicTLSKey : List Nat
  PublicSSHKey : List Nat
  Expires : Int
  ProxySuppliedParameters : Option ProxySuppliedParameters
  deriving DecidableEq, Repr

/-- The sealed `messages.Request` interface; in the source the only
implementor is `*messages.ClientInit`. -/
inductive Request where
  | clientInit (c : ClientInit)
  deriving DecidableEq, Repr

/-- Field set of `messages.ServerInit`. -/
structure ServerInit where
  JoinMethod : String
  deriving DecidableEq, Repr

/-- Field set of `messages.Result`. -/
structure Result where
  TLSCert : List Nat
  TLSCACerts : List (List Nat)
  SSHCert : List Nat
  SSHCAKeys : List (List Nat)
  HostID : String
  deriving DecidableEq, Repr

/-- The sealed `messages.Response` interface. `serverInit` and `result` are
the implementors defined in the source; `methodSpecific` stands for a value
of any other dynamic type reaching the translator's `default` switch arm
(the spec's future method-specific opaque messages). -/
inductive Response where
  | serverInit (s : ServerInit)
  | result (r : Result)
  | methodSpecific (tag : String)
  deriving DecidableEq, Repr

end messages

namespace joinv1

/-- Wire `joinv1.ClientInit.ProxySuppliedParameters` message. -/
structure ProxySuppliedParameters where
  RemoteAddr : String
  ClientVersion : String
  deriving DecidableEq, Repr

/-- Wire `joinv1.ClientInit` message, fields as accessed by the translator.
`Expires` is an optional timestamp pointer: `GetExpires().AsTime()` on a nil
timestamp yields the zero instant, modelled by `Option.getD 0`. -/
structure ClientInit where
  JoinMethod : String
  TokenName : String
  NodeName : String
  Role : String
  AdditionalPrincipals : List String
  DnsNames : List String
  PublicTlsKey : List Nat
  PublicSshKey : List Nat
  Expires : Option Int
  ProxySuppliedParameters : Option ProxySuppliedParameters
  deriving DecidableEq, Repr

/-- Model of `req.GetExpires().AsTime()`. -/
def ClientInit.getExpiresAsTime (c : ClientInit) : Int :=
  c.Expires.getD 0

/-- The `oneof` payload of a wire `joinv1.JoinRequest`. `clientInit` is the
variant the translator recognizes; `methodSpecific` stands for any other
(e.g. future method-specific) payload type, which lands in the `default`
switch arm of `convertRequestToMessage`. -/
inductive JoinRequestPayload where
  | clientInit (c : ClientInit)
  | methodSpecific (tag : String)
  deriving DecidableEq, Repr

/-- Wire `joinv1.JoinRequest`; the `oneof` payload may be absent (`none`
models a nil payload, which `GetPayload` surfaces as nil). -/
structure JoinRequest where
  Payload : Option JoinRequestPayload
  deriving DecidableEq, Repr

/-- Wire `joinv1.ServerInit` message. -/
structure ServerInit where
  JoinMethod : String
  deriving DecidableEq, Repr

/-- Wire `joinv1.Result` message. -/
structure Result where
  TlsCert : List Nat
  TlsCaCerts : List (List Nat)
  SshCert : List Nat
  SshCaKeys : List (List Nat)
  HostId : String
  deriving DecidableEq, Repr

/-- The `oneof` payload of a wire `joinv1.JoinResponse`. -/
inductive JoinResponsePayload where
  | init (i : ServerInit)
  | result (r : Result)
  deriving DecidableEq, Repr

/-- Wire `joinv1.JoinResponse`. -/
structure JoinResponse where
  Payload : JoinResponsePayload
  deriving DecidableEq, Repr

/-- Translation of `convertClientInitToMessage` from
lib/join/joinv1/messages.go. -/
def convertClientInitToMessage (req : ClientInit) : messages.ClientInit :=
  { JoinMethod := req.JoinMethod
    TokenName := req.TokenName
    NodeName := req.NodeName
    Role := req.Role
    AdditionalPrincipals := req.AdditionalPrincipals
    DNSNames := req.DnsNames
    PublicTLSKey := req.PublicTlsKey
    PublicSSHKey := req.PublicSshKey
    Expires := req.getExpiresAsTime
    ProxySuppliedParameters :=
      req.ProxySuppliedParameters.map fun p =>
        { RemoteAddr := p.RemoteAddr, ClientVersion := p.ClientVersion } }

/-- Translation of `convertRequestToMessage`: the type switch recognizes only
the `ClientInit` payload; every other payload (including an absent one) hits
the `default` arm and returns `trace.BadParameter`. -/
def convertRequestToMessage (req : JoinRequest) :
    Except JoinErr messages.Request :=
  match req.Payload with
  | some (.clientInit c) =>
      .ok (.clientInit (convertClientInitToMessage c))
  | _ =>
      .error (.badParameter "unrecognized join request message type")

/-- Translation of `convertServerInitFromMessage`. -/
def convertServerInitFromMessage (msg : messages.ServerInit) : ServerInit :=
  { JoinMethod := msg.JoinMethod }

/-- Translation of `convertResultFromMessage`, field for field as in the
source; note the source assigns `msg.TLSCert` to the wire `SshCert` field. -/
def convertResultFromMessage (msg : messages.Result) : Result :=
  { TlsCert := msg.TLSCert
    TlsCaCerts := msg.TLSCACerts
    SshCert := msg.TLSCert
    SshCaKeys := msg.SSHCAKeys
    HostId := msg.HostID }

/-- Translation of `convertResponseFromMessage`: `ServerInit` and `Result`
are recognized; any other `messages.Response` value hits the `default` arm
and returns `trace.BadParameter`. -/
def convertResponseFromMessage (resp : messages.Response) :
    Except JoinErr JoinResponse :=
  match resp with
  | .serverInit s =>
      .ok { Payload := .init (convertServerInitFromMessage s) }
  | .result r =>
      .ok { Payload := .result (convertResultFromMessage r) }
  | .methodSpecific _ =>
      .error (.badParameter "unrecognized join response message type")

end joinv1

namespace joinv1

/-- The cases of a two-armed Go `select` racing a context-done channel
against a channel operation. -/
inductive SelectCase where
  | ctxDone
  | chanOp
  deriving DecidableEq, Repr

/-- Semantics of a two-armed Go `select`: the list of cases the runtime may
choose, given which arms are currently ready. The `select` blocks exactly
when the list is empty; with several ready arms the runtime picks among
them. -/
def goSelect (doneReady opReady : Bool) : List SelectCase :=
  (if doneReady then [SelectCase.ctxDone] else []) ++
    (if opReady then [SelectCase.chanOp] else [])

/-- Result of one `stream.Recv()` call in the server read task: a wire
request, `io.EOF` (client half-close), or a transport error. -/
inductive RecvEvent where
  | ok (req : JoinRequest)
  | eof
  | fail (e : String)
  deriving DecidableEq, Repr

/-- Resolution of the read task's `select` when it forwards a decoded
request to the service: either the service receives it, or the shared
context is cancelled first. -/
inductive ChanSendOutcome where
  | delivered
  | ctxCancelled
  deriving DecidableEq, Repr

/-- Observable outcome of the server read task: its returned error (`none`
= clean exit), the requests it forwarded to the business logic in order,
and whether the deferred `close(requests)` ran. -/
structure ReadTaskResult where
  err : Option JoinErr
  sent : List messages.Request
  closedRequests : Bool
  deriving DecidableEq, Repr

/-- Denotation of the read-task closure of `server.Join` over a trace of
`Recv` results and a schedule resolving each forwarding `select`. Returns
`none` when the task is still blocked (the trace ran out). Every `return`
path runs the deferred `close(requests)`. -/
def readTask : List RecvEvent → List ChanSendOutcome → Option ReadTaskResult
  | [], _ => none
  | .eof :: _, _ => some { err := none, sent := [], closedRequests := true }
  | .fail e :: _, _ =>
      some { err := some (.wrapped "reading client request from stream" (.transport e))
             sent := [], closedRequests := true }
  | .ok req :: evs, sch =>
      match convertRequestToMessage req with
      | .error e => some { err := some e, sent := [], closedRequests := true }
      | .ok msg =>
        match sch with
        | [] => none
        | .ctxCancelled :: _ =>
            some { err := some .canceled, sent := [], closedRequests := true }
        | .delivered :: sch =>
            match readTask evs sch with
            | none => none
            | some r => some { r with sent := msg :: r.sent }

/-- One loop iteration of the server write task, as resolved at its
`select`: the shared context is cancelled, the responses channel is closed
by the business logic, or a response is received (with the result of the
subsequent `stream.Send`, `none` meaning success). -/
inductive WriteStep where
  | ctxCancelled
  | chanClosed
  | recv (r : messages.Response) (sendErr : Option String)
  deriving DecidableEq, Repr

/-- Observable outcome of the server write task: its returned error and the
wire responses written to the stream in order. -/
structure WriteTaskResult where
  err : Option JoinErr
  written : List JoinResponse
  deriving DecidableEq, Repr

/-- Denotation of the write-task closure of `server.Join` over a trace of
loop-iteration resolutions; `none` when the task is still blocked. -/
def writeTask : List WriteStep → Option WriteTaskResult
  | [] => none
  | .ctxCancelled :: _ => some { err := some .canceled, written := [] }
  | .chanClosed :: _ => some { err := none, written := [] }
  | .recv r s :: steps =>
      match convertResponseFromMessage r with
      | .error e => some { err := some e, written := [] }
      | .ok msg =>
        match s with
        | some e =>
            some { err := some (.wrapped "sending server response to stream" (.transport e))
                   written := [] }
        | none =>
            match writeTask steps with
            | none => none
            | some res => some { res with written := msg :: res.written }

/-- Pure denotation of a `Service` implementation (the business logic): from
the requests it will receive, the responses it emits and its returned
error. -/
structure Service where
  join : List messages.Request → List messages.Response × Option JoinErr

/-- The `server` struct registered against the gRPC server; its `service`
field is an interface, `none` modelling the nil interface value. -/
structure Server where
  service : Option Service

/-- Translation of `RegisterJoinServiceServer`: it registers `&server{}`,
whose `service` field is left at its zero value (nil). -/
def registerJoinServiceServer : Server :=
  { service := none }

/-- Outcome of the business-logic closure `s.service.Join(ctx, requests,
responses)`: calling a method on a nil `Service` interface panics, otherwise
the service runs and its error is `trace.Wrap`ped. -/
inductive BusinessOutcome where
  | nilServicePanic
  | ran (err : Option JoinErr)

/-- Denotation of the business-logic closure of `server.Join`. -/
def businessTask (svc : Option Service) (reqs : List messages.Request) :
    BusinessOutcome :=
  match svc with
  | none => .nilServicePanic
  | some s => .ran (traceWrap (s.join reqs).2)

/-- Semantics of `errgroup.Group.Wait`: given the results of the spawned
closures in the order they completed, `Wait` blocks until all have exited
and returns the first non-nil error (or nil if none failed). -/
def errgroupWait (completed : List (Option JoinErr)) : Option JoinErr :=
  completed.findSome? id

/-- Denotation of `server.Join`'s return value: `trace.Wrap(g.Wait())`
applied to the results of the three spawned tasks in completion order. -/
def serverJoin (completed : List (Option JoinErr)) : Option JoinErr :=
  traceWrap (errgroupWait completed)

/-- One step the server read task takes once its `select` has chosen a case
(source lines `case <-ctx.Done(): return ctx.Err()` / `case requests <-
msg:`). -/
inductive ReadStepOutcome where
  | returned (e : Option JoinErr)
  | forwarded (m : messages.Request)
  deriving DecidableEq, Repr

/-- Behavior of the read task's `select` body for a chosen case. -/
def readSelectStep (m : messages.Request) : SelectCase → ReadStepOutcome
  | .ctxDone => .returned (some .canceled)
  | .chanOp => .forwarded m

/-- One step the server write task takes once its `select` has chosen a case
(source lines `case <-ctx.Done(): return ctx.Err()` / `case resp, ok :=
<-responses:`). -/
inductive WriteStepOutcome where
  | returned (e : Option JoinErr)
  | receivedResponse
  deriving DecidableEq, Repr

/-- Behavior of the write task's `select` body for a chosen case. -/
def writeSelectStep : SelectCase → WriteStepOutcome
  | .ctxDone => .returned (some .canceled)
  | .chanOp => .receivedResponse

end joinv1

namespace joinv1

/-- One loop iteration of the client send task in `Client.Join`, as resolved
at its `select`: the call context is cancelled, the caller-supplied requests
channel is closed, or a request is drained (with the result of the
subsequent `stream.Send()`, `none` meaning success). -/
inductive ClientSendStep where
  | ctxCancelled
  | chanClosed
  | recv (r : messages.Request) (sendErr : Option String)
  deriving DecidableEq, Repr

/-- Observable outcome of the client send task: its returned error, the
payload attached to each `Send` call on the stream in order, and whether
`CloseSend` was invoked before returning. -/
structure ClientSendResult where
  err : Option JoinErr
  sentPayloads : List (Option JoinRequest)
  closeSendCalled : Bool
  deriving DecidableEq, Repr

/-- Denotation of the send-task closure of `Client.Join`, exactly as
written: on draining a request the source calls `stream.Send()` with no
message (the drained request is never encoded), recorded as a `none`
payload; on channel close it returns nil without calling `CloseSend`. -/
def clientSendTask : List ClientSendStep → Option ClientSendResult
  | [] => none
  | .ctxCancelled :: _ =>
      some { err := some .canceled, sentPayloads := [], closeSendCalled := false }
  | .chanClosed :: _ =>
      some { err := none, sentPayloads := [], closeSendCalled := false }
  | .recv _ s :: steps =>
      match s with
      | some e =>
          some { err := some (.transport e), sentPayloads := [none]
                 closeSendCalled := false }
      | none =>
          match clientSendTask steps with
          | none => none
          | some res => some { res with sentPayloads := none :: res.sentPayloads }

/-- Structure of the task group set up by `Client.Join`: which tasks the
source spawns with `g.Go` and whether it calls `g.Wait()` before returning.
The source spawns a single task (the send task), spawns no receive task, and
ends without calling `g.Wait()` or returning a value. -/
structure ClientJoinTasks where
  spawnsSendTask : Bool
  spawnsReceiveTask : Bool
  callsWait : Bool
  deriving DecidableEq, Repr

/-- Task-group structure of `Client.Join` as written in the source. -/
def clientJoinTasks : ClientJoinTasks :=
  { spawnsSendTask := true, spawnsReceiveTask := false, callsWait := false }

/-- Responses delivered on the caller-supplied `responses` channel by
`Client.Join`, as a function of the wire responses the server sent: the
source contains no receive task, so nothing is ever read from the stream,
decoded, or delivered. -/
def clientJoinDelivered : List JoinResponse → List messages.Response :=
  fun _ => []

end joinv1

/-- C1: the claim states that encoding any `Result` and decoding it back is
the identity, and in particular that `convertResultFromMessage` maps the
model `SSHCert` field to the wire `SshCert` field. The source instead
assigns `msg.TLSCert` to `SshCert`: at a `Result` with `TLSCert = [1]` and
`SSHCert = [2]`, the wire `SshCert` is `[1]`, not the original `SSHCert`. -/
theorem convertResultFromMessage_swaps_ssh_cert :
    (joinv1.convertResultFromMessage
        ⟨[1], [], [2], [], "host-123"⟩).SshCert = [1] ∧
      (⟨[1], [], [2], [], "host-123"⟩ : messages.Result).SSHCert = [2] ∧
      (joinv1.convertResultFromMessage
          ⟨[1], [], [2], [], "host-123"⟩).SshCert
        ≠ (⟨[1], [], [2], [], "host-123"⟩ : messages.Result).SSHCert := by
  refine ⟨rfl, rfl, ?_⟩
  decide

/-- C2: the claim states that the client send task encodes each drained
request and sends that encoded value, and half-closes the stream when the
requests channel closes. On the trace that drains one request and then sees
the channel closed, the source's send task attaches no encoded request to
its single `Send` call and returns without calling `CloseSend`. -/
theorem clientSendTask_drops_request_and_close :
    joinv1.clientSendTask
        [.recv (.clientInit ⟨"token", "", "node-1", "", [], [], [], [], 0, none⟩) none,
          .chanClosed]
      = some { err := none, sentPayloads := [none], closeSendCalled := false } := by
  rfl

/-- C3: the claim states that `Client.Join` runs a receive task delivering
decoded responses and blocks until all tasks exit. The source spawns no
receive task, never calls `g.Wait()`, and delivers no response even when the
server sent one. -/
theorem clientJoin_missing_receive_and_wait :
    joinv1.clientJoinTasks.spawnsReceiveTask = false ∧
      joinv1.clientJoinTasks.callsWait = false ∧
      joinv1.clientJoinDelivered [⟨.init ⟨"token"⟩⟩] = [] := by
  exact ⟨rfl, rfl, rfl⟩

/-- C4 counterexample: the claim states that decoding a wire request with a
method-specific (non-ClientInit) payload succeeds; on such a payload the
source's `convertRequestToMessage` returns `trace.BadParameter` instead. -/
theorem convertRequestToMessage_rejects_method_specific :
    joinv1.convertRequestToMessage ⟨some (.methodSpecific "tpm")⟩
      = .error (.badParameter "unrecognized join request message type") := by
  rfl

/-- C4 amended: decoding a wire request whose payload is any non-ClientInit
variant fails with the unrecognized-message (`BadParameter`) error; the core
does not forward such requests to the business logic. -/
theorem convertRequestToMessage_errors_on_non_client_init_payload
    (p : joinv1.JoinRequestPayload)
    (h : ∀ c, p ≠ joinv1.JoinRequestPayload.clientInit c) :
    joinv1.convertRequestToMessage { Payload := some p }
      = .error (.badParameter "unrecognized join request message type") := by
  cases p with
  | clientInit c => exact absurd rfl (h c)
  | methodSpecific t => rfl

/-- Witness for the amended C4 theorem at the payload tag "tpm". -/
theorem convertRequestToMessage_errors_on_non_client_init_payload_witness :
    joinv1.convertRequestToMessage
        { Payload := some (.methodSpecific "tpm") }
      = .error (.badParameter "unrecognized join request message type") :=
  convertRequestToMessage_errors_on_non_client_init_payload
    (.methodSpecific "tpm") (fun _ h => joinv1.JoinRequestPayload.noConfusion h)

/-- C5: `RegisterJoinServiceServer` registers `&server{}`, whose `service`
field is the nil interface, so the business-logic task of every accepted
stream invokes `Join` on a nil `Service` and can never run an actual join
service under this registration path. -/
theorem registerJoinServiceServer_nil_service :
    joinv1.registerJoinServiceServer.service = none ∧
      ∀ reqs, joinv1.businessTask joinv1.registerJoinServiceServer.service reqs
          = .nilServicePanic :=
  ⟨rfl, fun _ => rfl⟩

/-- C6: `convertRequestToMessage` returns the bad-parameter error exactly
when the wire payload is not a `ClientInit` variant, and
`convertResponseFromMessage` returns the bad-parameter error exactly when
given a response value that is neither a `ServerInit` nor a `Result`; both
are pure functions of their argument. -/
theorem translator_error_iff_unrecognized :
    (∀ req : joinv1.JoinRequest,
        joinv1.convertRequestToMessage req
            = .error (.badParameter "unrecognized join request message type")
          ↔ ∀ c, req.Payload ≠ some (.clientInit c)) ∧
      (∀ resp : messages.Response,
          joinv1.convertResponseFromMessage resp
              = .error (.badParameter "unrecognized join response message type")
            ↔ (∀ s, resp ≠ .serverInit s) ∧ (∀ r, resp ≠ .result r)) := by
  constructor
  · intro req
    obtain ⟨payload⟩ := req
    match payload with
    | none => simp [joinv1.convertRequestToMessage]
    | some (.clientInit c) =>
        constructor
        · intro h
          exact absurd h (by simp [joinv1.convertRequestToMessage])
        · intro h
          exact absurd rfl (h c)
    | some (.methodSpecific t) => simp [joinv1.convertRequestToMessage]
  · intro resp
    match resp with
    | .serverInit s =>
        constructor
        · intro h
          exact absurd h (by simp [joinv1.convertResponseFromMessage])
        · intro h
          exact absurd rfl (h.1 s)
    | .result r =>
        constructor
        · intro h
          exact absurd h (by simp [joinv1.convertResponseFromMessage])
        · intro h
          exact absurd rfl (h.2 r)
    | .methodSpecific t => simp [joinv1.convertResponseFromMessage]

/-- Read-task trace in which the client sends the given `ClientInit`
messages. -/
def okEvents (cs : List joinv1.ClientInit) : List joinv1.RecvEvent :=
  cs.map fun c => .ok { Payload := some (.clientInit c) }

/-- Schedule in which the business logic receives every forwarded request
before the context is cancelled. -/
def deliveredSched (cs : List joinv1.ClientInit) : List joinv1.ChanSendOutcome :=
  cs.map fun _ => .delivered

/-- The model requests the translator produces from the given wire
`ClientInit` messages. -/
def decodedRequests (cs : List joinv1.ClientInit) : List messages.Request :=
  cs.map fun c => .clientInit (joinv1.convertClientInitToMessage c)

/-- Running the read task over a prefix of well-formed, delivered
`ClientInit` requests forwards their decodings and continues with the rest
of the trace. -/
theorem readTask_clean_run (cs : List joinv1.ClientInit)
    (evs : List joinv1.RecvEvent) (sch : List joinv1.ChanSendOutcome) :
    joinv1.readTask (okEvents cs ++ evs) (deliveredSched cs ++ sch)
      = (joinv1.readTask evs sch).map
          (fun r => { r with sent := decodedRequests cs ++ r.sent }) := by
  induction cs with
  | nil =>
      cases h : joinv1.readTask evs sch <;>
        simp [okEvents, deliveredSched, decodedRequests, h]
  | cons c cs ih =>
      simp only [okEvents, deliveredSched, decodedRequests, List.map_cons,
        List.cons_append] at ih ⊢
      rw [joinv1.readTask]
      simp only [joinv1.convertRequestToMessage]
      rw [ih]
      cases h : joinv1.readTask evs sch <;> simp [h]

/-- On every trace on which the read task returns, the deferred
`close(requests)` has run. -/
theorem readTask_always_closes (evs : List joinv1.RecvEvent) :
    ∀ (sch : List joinv1.ChanSendOutcome) (res : joinv1.ReadTaskResult),
      joinv1.readTask evs sch = some res → res.closedRequests = true := by
  induction evs with
  | nil =>
      intro sch res h
      simp [joinv1.readTask] at h
  | cons ev evs ih =>
      intro sch res h
      cases ev with
      | eof =>
          rw [joinv1.readTask] at h
          cases h
          rfl
      | fail e =>
          rw [joinv1.readTask] at h
          cases h
          rfl
      | ok req =>
          rw [joinv1.readTask] at h
          cases hc : joinv1.convertRequestToMessage req with
          | error e =>
              rw [hc] at h
              cases h
              rfl
          | ok msg =>
              rw [hc] at h
              cases sch with
              | nil => cases h
              | cons o sch =>
                  cases o with
                  | ctxCancelled =>
                      cases h
                      rfl
                  | delivered =>
                      dsimp only at h
                      cases hr : joinv1.readTask evs sch with
                      | none => rw [hr] at h; cases h
                      | some r =>
                          rw [hr] at h
                          cases h
                          exact ih sch r hr

/-- C7: the server read task exits cleanly on end-of-stream, fails on a
transport read error or a decode error (after forwarding the decodings of
every earlier well-formed request), and its deferred `close(requests)` runs
on every exit path. -/
theorem readTask_spec :
    (∀ (evs : List joinv1.RecvEvent) (sch : List joinv1.ChanSendOutcome)
        (res : joinv1.ReadTaskResult),
        joinv1.readTask evs sch = some res → res.closedRequests = true) ∧
      (∀ cs evs sch,
          joinv1.readTask (okEvents cs ++ .eof :: evs) (deliveredSched cs ++ sch)
            = some { err := none, sent := decodedRequests cs,
                     closedRequests := true }) ∧
      (∀ cs e evs sch,
          joinv1.readTask (okEvents cs ++ .fail e :: evs)
              (deliveredSched cs ++ sch)
            = some { err := some (.wrapped "reading client request from stream"
                       (.transport e))
                     sent := decodedRequests cs, closedRequests := true }) ∧
      (∀ cs req e evs sch,
          joinv1.convertRequestToMessage req = Except.error e →
          joinv1.readTask (okEvents cs ++ .ok req :: evs)
              (deliveredSched cs ++ sch)
            = some { err := some e, sent := decodedRequests cs,
                     closedRequests := true }) := by
  refine ⟨readTask_always_closes, ?_, ?_, ?_⟩
  · intro cs evs sch
    rw [readTask_clean_run]
    simp [joinv1.readTask]
  · intro cs e evs sch
    rw [readTask_clean_run]
    simp [joinv1.readTask]
  · intro cs req e evs sch h
    rw [readTask_clean_run]
    rw [joinv1.readTask]
    rw [h]
    simp

/-- Witness for C7: a stream delivering a single request with an absent
payload makes the read task fail with the decode error, forwarding nothing,
with the requests channel closed. -/
theorem readTask_spec_witness :
    joinv1.readTask [.ok { Payload := none }] []
      = some { err := some (.badParameter "unrecognized join request message type")
               sent := [], closedRequests := true } :=
  readTask_spec.2.2.2 [] { Payload := none }
    (.badParameter "unrecognized join request message type") [] [] rfl

/-- The responses defined in the message model (the encodable ones): either
a `ServerInit` or a `Result`. -/
def sumToResponse : messages.ServerInit ⊕ messages.Result → messages.Response
  | .inl s => .serverInit s
  | .inr r => .result r

/-- The wire response the translator produces for each encodable model
response. -/
def wireOf : messages.ServerInit ⊕ messages.Result → joinv1.JoinResponse
  | .inl s => { Payload := .init (joinv1.convertServerInitFromMessage s) }
  | .inr r => { Payload := .result (joinv1.convertResultFromMessage r) }

/-- Encoding an encodable model response succeeds with its wire form. -/
theorem convertResponseFromMessage_sum
    (x : messages.ServerInit ⊕ messages.Result) :
    joinv1.convertResponseFromMessage (sumToResponse x) = .ok (wireOf x) := by
  cases x <;> rfl

/-- Write-task trace in which the business logic emits the given encodable
responses and every write to the stream succeeds. -/
def goodWriteSteps (xs : List (messages.ServerInit ⊕ messages.Result)) :
    List joinv1.WriteStep :=
  xs.map fun x => .recv (sumToResponse x) none

/-- Running the write task over a prefix of encodable responses with
successful writes records their wire forms and continues with the rest of
the trace. -/
theorem writeTask_good_run (xs : List (messages.ServerInit ⊕ messages.Result))
    (steps : List joinv1.WriteStep) :
    joinv1.writeTask (goodWriteSteps xs ++ steps)
      = (joinv1.writeTask steps).map
          (fun r => { r with written := xs.map wireOf ++ r.written }) := by
  induction xs with
  | nil =>
      cases h : joinv1.writeTask steps <;> simp [goodWriteSteps, h]
  | cons x xs ih =>
      simp only [goodWriteSteps, List.map_cons, List.cons_append] at ih ⊢
      rw [joinv1.writeTask]
      rw [convertResponseFromMessage_sum]
      dsimp only
      rw [ih]
      cases h : joinv1.writeTask steps <;> simp [h]

/-- On every trace on which the write task returns cleanly, the trace
reaches a closed-responses-channel step after a prefix of successfully
encoded and written responses. -/
theorem writeTask_clean_exit_from_close (steps : List joinv1.WriteStep) :
    ∀ res : joinv1.WriteTaskResult,
      joinv1.writeTask steps = some res → res.err = none →
      ∃ pre post, steps = pre ++ .chanClosed :: post ∧
        ∀ st ∈ pre, ∃ r w, st = joinv1.WriteStep.recv r none ∧
          joinv1.convertResponseFromMessage r = .ok w := by
  induction steps with
  | nil =>
      intro res h
      simp [joinv1.writeTask] at h
  | cons st steps ih =>
      intro res h herr
      cases st with
      | ctxCancelled =>
          rw [joinv1.writeTask] at h
          cases h
          cases herr
      | chanClosed =>
          exact ⟨[], steps, rfl, by intro st hst; cases hst⟩
      | recv r s =>
          rw [joinv1.writeTask] at h
          cases hc : joinv1.convertResponseFromMessage r with
          | error e =>
              rw [hc] at h
              cases h
              cases herr
          | ok w =>
              rw [hc] at h
              dsimp only at h
              cases s with
              | some e =>
                  cases h
                  cases herr
              | none =>
                  dsimp only at h
                  cases hr : joinv1.writeTask steps with
                  | none => rw [hr] at h; cases h
                  | some r0 =>
                      rw [hr] at h
                      cases h
                      obtain ⟨pre, post, hsteps, hpre⟩ := ih r0 hr herr
                      refine ⟨.recv r none :: pre, post, by rw [hsteps]; rfl, ?_⟩
                      intro st hst
                      cases hst with
                      | head => exact ⟨r, w, rfl, hc⟩
                      | tail _ hmem => exact hpre st hmem

/-- C8: the server write task encodes and writes every response received
before closure and returns nil exactly on the channel-closed path; an
encoding error or a transport write error makes it return that error. -/
theorem writeTask_spec :
    (∀ (xs : List (messages.ServerInit ⊕ messages.Result))
        (rest : List joinv1.WriteStep),
        joinv1.writeTask (goodWriteSteps xs ++ .chanClosed :: rest)
          = some { err := none, written := xs.map wireOf }) ∧
      (∀ (steps : List joinv1.WriteStep) (res : joinv1.WriteTaskResult),
          joinv1.writeTask steps = some res → res.err = none →
          ∃ pre post, steps = pre ++ .chanClosed :: post ∧
            ∀ st ∈ pre, ∃ r w, st = joinv1.WriteStep.recv r none ∧
              joinv1.convertResponseFromMessage r = .ok w) ∧
      (∀ (r : messages.Response) (e : JoinErr) (s : Option String)
          (rest : List joinv1.WriteStep),
          joinv1.convertResponseFromMessage r = .error e →
          joinv1.writeTask (.recv r s :: rest)
            = some { err := some e, written := [] }) ∧
      (∀ (r : messages.Response) (w : joinv1.JoinResponse) (e : String)
          (rest : List joinv1.WriteStep),
          joinv1.convertResponseFromMessage r = .ok w →
          joinv1.writeTask (.recv r (some e) :: rest)
            = some { err := some (.wrapped "sending server response to stream"
                       (.transport e))
                     written := [] }) := by
  refine ⟨?_, writeTask_clean_exit_from_close, ?_, ?_⟩
  · intro xs rest
    rw [writeTask_good_run]
    simp [joinv1.writeTask]
  · intro r e s rest h
    rw [joinv1.writeTask]
    rw [h]
  · intro r w e rest h
    rw [joinv1.writeTask]
    rw [h]

/-- Witness for C8: a trace carrying one `ServerInit` response and then the
channel-closed signal makes the write task return nil after writing the one
encoded response. -/
theorem writeTask_spec_witness :
    joinv1.writeTask (goodWriteSteps [.inl ⟨"token"⟩] ++ [.chanClosed])
      = some { err := none
               written := [{ Payload := .init { JoinMethod := "token" } }] } :=
  writeTask_spec.1 [.inl ⟨"token"⟩] []

/-- The modelled `errgroup.Wait` returns nil exactly when every task
returned nil. -/
theorem errgroupWait_eq_none_iff (rs : List (Option JoinErr)) :
    joinv1.errgroupWait rs = none ↔ ∀ x ∈ rs, x = none := by
  induction rs with
  | nil => simp [joinv1.errgroupWait]
  | cons r rs ih =>
      cases r with
      | none =>
          have hstep : joinv1.errgroupWait (none :: rs) = joinv1.errgroupWait rs := by
            simp [joinv1.errgroupWait, List.findSome?]
          rw [hstep, ih]
          simp
      | some x => simp [joinv1.errgroupWait, List.findSome?]

/-- The error returned by the modelled `errgroup.Wait` is a result of one
of the tasks. -/
theorem errgroupWait_mem (rs : List (Option JoinErr)) (e : JoinErr) :
    joinv1.errgroupWait rs = some e → some e ∈ rs := by
  induction rs with
  | nil => intro h; simp [joinv1.errgroupWait, List.findSome?] at h
  | cons r rs ih =>
      intro h
      cases r with
      | none =>
          have h0 : joinv1.errgroupWait rs = some e := by
            simpa [joinv1.errgroupWait, List.findSome?] using h
          exact List.mem_cons_of_mem _ (ih h0)
      | some x =>
          have hx : x = e := by
            simpa [joinv1.errgroupWait, List.findSome?] using h
          subst hx
          exact List.mem_cons_self _ _

/-- The modelled `errgroup.Wait` returns the first non-nil result. -/
theorem errgroupWait_first_error (pre post : List (Option JoinErr))
    (e : JoinErr) (hpre : ∀ x ∈ pre, x = none) :
    joinv1.errgroupWait (pre ++ some e :: post) = some e := by
  induction pre with
  | nil => simp [joinv1.errgroupWait, List.findSome?]
  | cons x pre ih =>
      have hx : x = none := hpre x (List.mem_cons_self _ _)
      subst hx
      have h0 := ih fun y hy => hpre y (List.mem_cons_of_mem _ hy)
      simpa [joinv1.errgroupWait, List.findSome?] using h0

/-- C9: `server.Join` waits for the results of all three tasks; it returns
nil exactly when the business-logic, read and write tasks all returned nil,
any error it returns was produced by one of the three tasks, and the error
returned is the first non-nil result in completion order. -/
theorem serverJoin_first_error_wins
    (svcRes readRes writeRes : Option JoinErr)
    (order : List (Option JoinErr))
    (hperm : order.Perm [svcRes, readRes, writeRes]) :
    (joinv1.serverJoin order = none ↔
        svcRes = none ∧ readRes = none ∧ writeRes = none) ∧
      (∀ e, joinv1.serverJoin order = some e →
          some e ∈ [svcRes, readRes, writeRes]) ∧
      ∀ pre post e, order = pre ++ some e :: post →
        (∀ x ∈ pre, x = none) → joinv1.serverJoin order = some e := by
  have hwrap : ∀ rs, joinv1.serverJoin rs = joinv1.errgroupWait rs := by
    intro rs
    cases h : joinv1.errgroupWait rs <;>
      simp [joinv1.serverJoin, traceWrap, h]
  refine ⟨?_, ?_, ?_⟩
  · rw [hwrap, errgroupWait_eq_none_iff]
    constructor
    · intro h
      refine ⟨h _ ?_, h _ ?_, h _ ?_⟩ <;> rw [hperm.mem_iff] <;> simp
    · rintro ⟨h1, h2, h3⟩ x hx
      have hm : x ∈ [svcRes, readRes, writeRes] := hperm.mem_iff.1 hx
      subst h1
      subst h2
      subst h3
      simpa using hm
  · intro e h
    rw [hwrap] at h
    exact hperm.mem_iff.1 (errgroupWait_mem order e h)
  · intro pre post e horder hpre
    rw [hwrap, horder]
    exact errgroupWait_first_error pre post e hpre

/-- Witness for C9: with the read task failing on cancellation and the
other two tasks clean, `server.Join` returns the read task's error. -/
theorem serverJoin_first_error_wins_witness :
    joinv1.serverJoin [none, some JoinErr.canceled, none]
      = some JoinErr.canceled :=
  (serverJoin_first_error_wins none (some JoinErr.canceled) none
      [none, some JoinErr.canceled, none] (List.Perm.refl _)).2.2
    [none] [none] JoinErr.canceled rfl (by simp)

/-- C10: when the shared group context is cancelled while the read task is
blocked forwarding a decoded request and the write task is blocked receiving
a response, the two-armed `select` of each task has exactly the context-done
case available (so neither task stays blocked), and each task returns the
context's error. -/
theorem cancellation_unblocks_reader_and_writer
    (req : joinv1.JoinRequest) (m : messages.Request)
    (evs : List joinv1.RecvEvent) (sch : List joinv1.ChanSendOutcome)
    (steps : List joinv1.WriteStep)
    (h : joinv1.convertRequestToMessage req = .ok m) :
    joinv1.goSelect true false = [joinv1.SelectCase.ctxDone] ∧
      joinv1.readSelectStep m .ctxDone = .returned (some .canceled) ∧
      joinv1.writeSelectStep .ctxDone = .returned (some .canceled) ∧
      joinv1.readTask (.ok req :: evs) (.ctxCancelled :: sch)
        = some { err := some .canceled, sent := [], closedRequests := true } ∧
      joinv1.writeTask (.ctxCancelled :: steps)
        = some { err := some .canceled, written := [] } := by
  refine ⟨rfl, rfl, rfl, ?_, rfl⟩
  rw [joinv1.readTask, h]

/-- Witness for C10: cancellation while forwarding a concrete decoded
`ClientInit` makes the read task return the context error. -/
theorem cancellation_unblocks_reader_and_writer_witness :
    joinv1.readTask
        [.ok { Payload := some (.clientInit
          ⟨"token", "", "node-1", "", [], [], [], [], none, none⟩) }]
        [.ctxCancelled]
      = some { err := some .canceled, sent := [], closedRequests := true } :=
  (cancellation_unblocks_reader_and_writer
      { Payload := some (.clientInit
        ⟨"token", "", "node-1", "", [], [], [], [], none, none⟩) }
      (.clientInit (joinv1.convertClientInitToMessage
        ⟨"token", "", "node-1", "", [], [], [], [], none, none⟩))
      [] [] [] rfl).2.2.2.1
